import Mathlib

/-!
Verification of `dsf_cue_split.py`, a DSF (DSD stream file) splitter driven
by cue sheets.  Files are modelled as lists of bytes (`List Nat`, each entry
< 256 when produced by the packing functions), Python `struct` packing as
explicit little/big-endian byte lists, and each fallible Python function as
an `Option`-returning Lean function where `none` stands for an uncaught
exception (ValueError / AssertionError / struct.error) or, where noted, a
skipped write.
-/

namespace DsfCueSplit

/-- Little-endian encoding of `n` into `w` bytes, as Python
`struct.pack('<Q', n)` / `struct.pack('<I', n)` produce (Python raises for
out-of-range `n`; the model truncates mod 2^(8w), and claims carry the
in-range bounds where they matter). -/
def packLE : Nat → Nat → List Nat
  | 0, _ => []
  | w + 1, n => n % 256 :: packLE w (n / 256)

/-- Big-endian encoding of `n` into `w` bytes (`struct.pack('>I', n)`). -/
def packBE (w n : Nat) : List Nat :=
  (packLE w n).reverse

/-- Little-endian decoding of a byte list, as `struct.unpack('<Q', b)[0]`
computes. -/
def unpackLE : List Nat → Nat
  | [] => 0
  | b :: rest => b + 256 * unpackLE rest

/-- The bytes of the ASCII tag `b'DSD '`. -/
def dsdMagic : List Nat := [0x44, 0x53, 0x44, 0x20]

/-- The bytes of the ASCII tag `b'fmt '`. -/
def fmtMagic : List Nat := [0x66, 0x6d, 0x74, 0x20]

/-- The bytes of the ASCII tag `b'data'`. -/
def dataMagic : List Nat := [0x64, 0x61, 0x74, 0x61]

/-- Decode the `w`-byte little-endian field of `file` at byte offset
`off`. -/
def fieldAt (file : List Nat) (off w : Nat) : Nat :=
  unpackLE ((file.drop off).take w)

/-- The dict returned by `read_dsf_header` (the `filepath` key, a plain
copy of the argument, is omitted).  `data_size` is
`data_chunk_size - 12` computed over Python's unbounded signed integers,
hence an `Int`. -/
structure DsfHeader where
  total_file_size : Nat
  metadata_offset : Nat
  fmt_chunk_size : Nat
  fmt_version : Nat
  format_id : Nat
  channel_type : Nat
  channel_num : Nat
  sample_rate : Nat
  bits_per_sample : Nat
  sample_count : Nat
  block_size : Nat
  data_offset : Nat
  data_size : Int
  deriving Repr, DecidableEq

/-- Model of `read_dsf_header`, byte for byte as the source reads it: tag `b'DSD '`
at offset 0, two 8-byte fields at offsets 4 and 12, then the `b'fmt '` tag
check **at offset 20** (the source never consumes the DSD chunk-size field,
so every offset from the fmt tag on is 8 bytes earlier than the on-disk DSF
layout), fmt fields at offsets 24..68, the `b'data'` tag at 68, the data
chunk size at 72, and `data_offset = f.tell() = 80`.  `none` models the
`ValueError` on a tag mismatch and the `struct.error` on a short read. -/
def read_dsf_header (file : List Nat) : Option DsfHeader :=
  if file.take 4 ≠ dsdMagic then none
  else if file.length < 20 then none
  else if (file.drop 20).take 4 ≠ fmtMagic then none
  else if file.length < 68 then none
  else if (file.drop 68).take 4 ≠ dataMagic then none
  else if file.length < 80 then none
  else some {
    total_file_size := fieldAt file 4 8
    metadata_offset := fieldAt file 12 8
    fmt_chunk_size := fieldAt file 24 8
    fmt_version := fieldAt file 32 4
    format_id := fieldAt file 36 4
    channel_type := fieldAt file 40 4
    channel_num := fieldAt file 44 4
    sample_rate := fieldAt file 48 4
    bits_per_sample := fieldAt file 52 4
    sample_count := fieldAt file 56 8
    block_size := fieldAt file 64 4
    data_offset := 80
    data_size := (fieldAt file 72 8 : Int) - 12 }

/-- Model of `_id3_syncsafe`: four 7-bit bytes, most significant first.  The source
fills `out[3], out[2], out[1], out[0]` with `n & 0x7F`, shifting `n` right
by 7 between writes. -/
def id3_syncsafe (n : Nat) : List Nat :=
  [n >>> 21 % 128, n >>> 14 % 128, n >>> 7 % 128, n % 128]

/-- Model of `_id3_text_frame`.  Text parameters throughout the tag builder are
modelled as their UTF-8 byte encodings (`text.encode('utf-8')` is then the
identity; Python's `if not text` is `text = []`). -/
def id3_text_frame (frame_id : List Nat) (text : List Nat) : List Nat :=
  if text = [] then []
  else
    let payload := 0x03 :: text
    frame_id ++ packBE 4 payload.length ++ [0, 0] ++ payload

/-- Frame identifier bytes `'TIT2'`. -/
def tit2Id : List Nat := [0x54, 0x49, 0x54, 0x32]
/-- Frame identifier bytes `'TPE1'`. -/
def tpe1Id : List Nat := [0x54, 0x50, 0x45, 0x31]
/-- Frame identifier bytes `'TALB'`. -/
def talbId : List Nat := [0x54, 0x41, 0x4c, 0x42]
/-- Frame identifier bytes `'TRCK'`. -/
def trckId : List Nat := [0x54, 0x52, 0x43, 0x4b]
/-- Frame identifier bytes `'TCON'`. -/
def tconId : List Nat := [0x54, 0x43, 0x4f, 0x4e]
/-- Frame identifier bytes `'TYER'`. -/
def tyerId : List Nat := [0x54, 0x59, 0x45, 0x52]

/-- The keyword arguments of `build_id3v2_tag` / the `tags` dict passed to
`write_id3_to_dsf`, each text as its UTF-8 bytes. -/
structure Tags where
  title : List Nat := []
  artist : List Nat := []
  album : List Nat := []
  track_num : List Nat := []
  total_tracks : List Nat := []
  genre : List Nat := []
  date : List Nat := []
  deriving Repr, DecidableEq

/-- Model of `build_id3v2_tag`: concatenated text frames (the TRCK text is
`f"{track_num}/{total_tracks}"`, i.e. `track_num ++ [0x2f] ++ total_tracks`,
when `total_tracks` is non-empty), prefixed by the 10-byte ID3v2.3 header
when any frame is present. -/
def build_id3v2_tag (t : Tags) : List Nat :=
  let frames :=
    id3_text_frame tit2Id t.title ++
    id3_text_frame tpe1Id t.artist ++
    id3_text_frame talbId t.album ++
    (if t.track_num ≠ [] then
        id3_text_frame trckId
          (if t.total_tracks ≠ [] then t.track_num ++ [0x2f] ++ t.total_tracks
           else t.track_num)
      else []) ++
    id3_text_frame tconId t.genre ++
    id3_text_frame tyerId t.date
  if frames = [] then []
  else [0x49, 0x44, 0x33, 0x03, 0x00, 0x00] ++ id3_syncsafe frames.length ++ frames

/-- An in-place write of `bytes` at byte offset `off` of an `r+b` file:
bytes past the end extend the file, and a seek past the end fills the gap
with zero bytes. -/
def writeAt (file : List Nat) (off : Nat) (bytes : List Nat) : List Nat :=
  file.take off ++ List.replicate (off - file.length) 0 ++ bytes ++
    file.drop (off + bytes.length)

/-- Model of `write_id3_to_dsf` as a function from the file's bytes to the file's
bytes after the call: build the tag blob (empty blob: return, file
untouched), assert the `b'DSD '` magic, read the old total file size at
offset 12, patch offset 12 to `old_total + len(tag_blob)` and offset 20 to
`old_total`, and append the blob at EOF.  `none` models the
`AssertionError` on a bad magic and the `struct.error` on a file shorter
than 20 bytes. -/
def write_id3_to_dsf (file : List Nat) (tags : Tags) : Option (List Nat) :=
  let tag_blob := build_id3v2_tag tags
  if tag_blob = [] then some file
  else if file.take 4 ≠ dsdMagic then none
  else if file.length < 20 then none
  else
    let old_total := fieldAt file 12 8
    let new_total := old_total + tag_blob.length
    some (writeAt (writeAt file 12 (packLE 8 new_total)) 20 (packLE 8 old_total)
      ++ tag_blob)

/-- Model of `time_to_samples`.  The source computes
`int((minutes*60 + seconds + frames/75.0) * sample_rate)` with Python
floats; the model computes the same expression over exact rationals
(`int` truncates toward zero, and the value is nonnegative, hence the
floor).  At every input this file evaluates it on, all intermediate float
values are exactly representable, so model and source agree there. -/
def time_to_samples (minutes seconds frames sample_rate : Nat) : Nat :=
  (⌊((minutes * 60 + seconds : ℚ) + (frames : ℚ) / 75) * (sample_rate : ℚ)⌋).toNat

/-- Model of `samples_to_block_index`: floor division by `block_size * 8` (Python
raises `ZeroDivisionError` when `block_size = 0`; Lean's `/` yields 0
there — claim C9 characterises exactly when the divisor is zero). -/
def samples_to_block_index (samples block_size : Nat) : Nat :=
  samples / (block_size * 8)

/-- The copy loop of `write_dsf_track`, structurally recursive on a fuel
argument.  The fuel is initialised to `remaining` by `copyLoop`; each
iteration consumes at least one byte of `remaining` (or terminates), so the
fuel never runs out and the `fuel = 0` branch is unreachable from
`copyLoop`.  A read returns the bytes of `src` from `pos`, at most
`to_read` of them; an empty read zero-fills the remainder, as the source's
`if not data` branch does. -/
def copyGo (src : List Nat) (bufSize : Nat) : Nat → Nat → Nat → List Nat
  | 0, _, _ => []
  | fuel + 1, pos, remaining =>
    if remaining = 0 then []
    else
      let to_read := min bufSize remaining
      let data := (src.drop pos).take to_read
      if data = [] then List.replicate remaining 0
      else data ++ copyGo src bufSize fuel (pos + data.length) (remaining - data.length)

/-- The `while remaining > 0` copy loop of `write_dsf_track`, started at
source position `pos` with `remaining` bytes still owed to the output. -/
def copyLoop (src : List Nat) (pos remaining bufSize : Nat) : List Nat :=
  copyGo src bufSize remaining pos remaining

/-- Model of `write_dsf_track` as a function from the source file's bytes, its
header dict and the block range to the bytes of the output file; `none`
models the `num_blocks <= 0` early return (warning printed, no file
created).  Callers pass a nonnegative `start_block` (a negative seek would
raise in Python; the model truncates at 0). -/
def write_dsf_track (src : List Nat) (header : DsfHeader)
    (start_block end_block : Int) : Option (List Nat) :=
  let block_size := header.block_size
  let channel_num := header.channel_num
  let frame_size := block_size * channel_num
  let num_blocks := end_block - start_block
  if num_blocks ≤ 0 then none
  else
    let nb := num_blocks.toNat
    let new_sample_count := nb * block_size * 8
    let new_data_payload := nb * frame_size
    let new_data_chunk_size := 12 + new_data_payload
    let new_total_size := 28 + header.fmt_chunk_size + new_data_chunk_size
    let fmt_extra :=
      if 52 < header.fmt_chunk_size then
        (src.drop (28 + 52)).take (header.fmt_chunk_size - 52)
      else []
    let src_data_start := header.data_offset + start_block.toNat * frame_size
    some (dsdMagic ++ packLE 8 28 ++ packLE 8 new_total_size ++ packLE 8 0 ++
      fmtMagic ++ packLE 8 header.fmt_chunk_size ++
      packLE 4 header.fmt_version ++ packLE 4 header.format_id ++
      packLE 4 header.channel_type ++ packLE 4 channel_num ++
      packLE 4 header.sample_rate ++ packLE 4 header.bits_per_sample ++
      packLE 8 new_sample_count ++ packLE 4 block_size ++ packLE 4 0 ++
      fmt_extra ++
      dataMagic ++ packLE 8 new_data_chunk_size ++
      copyLoop src src_data_start new_data_payload (frame_size * 64))

/-- One line of a cue sheet, presented as the directive the source's
anchored regular expressions would recognise on the stripped line.  The
regexes are mutually exclusive on any one line, and are tried in this
order; a line matching none of them (including `INDEX` with a number other
than `01`) is `other` and is ignored. -/
inductive CueLine where
  | fileLine (name : String)
  | remGenre (v : String)
  | remDate (v : String)
  | trackLine (num : String)
  | titleLine (v : String)
  | performerLine (v : String)
  | index01 (mm ss ff : Nat)
  | other
  deriving Repr, DecidableEq

/-- A track dict built by `parse_cue`: the `file`, `track_num`, `title` and
`performer` keys are set at creation; the three `index_*` keys appear only
once an `INDEX 01` line fires, hence one `Option` triple. -/
structure CueTrack where
  file : Option String
  track_num : String
  title : String
  performer : String
  index : Option (Nat × Nat × Nat)
  deriving Repr, DecidableEq

/-- The `album_meta` dict (absent key = `none`). -/
structure AlbumMeta where
  albumTitle : Option String := none
  albumPerformer : Option String := none
  genre : Option String := none
  date : Option String := none
  deriving Repr, DecidableEq

/-- The mutable state of `parse_cue`'s loop.  `currentTrack` holds the
index into `tracks` of the open track: the source's `current_track`
variable aliases the dict it appended to `tracks`, so mutating it mutates
the list entry. -/
structure CueState where
  album : AlbumMeta := {}
  tracks : List CueTrack := []
  currentFile : Option String := none
  currentTrack : Option Nat := none
  deriving Repr, DecidableEq

/-- Replace the element at index `i` by `f` of it (out-of-range: no
change); the in-place dict mutation through the `current_track` alias. -/
def modifyAt (l : List CueTrack) (i : Nat) (f : CueTrack → CueTrack) : List CueTrack :=
  l.take i ++ ((l.drop i).head?.map f).toList ++ l.drop (i + 1)

/-- One iteration of `parse_cue`'s loop on an already-recognised line. -/
def parse_cue_line (s : CueState) (l : CueLine) : CueState :=
  match l with
  | .fileLine name => { s with currentFile := some name }
  | .remGenre v => { s with album := { s.album with genre := some v } }
  | .remDate v => { s with album := { s.album with date := some v } }
  | .trackLine num =>
    let tk : CueTrack :=
      { file := s.currentFile
        track_num := num
        title := "Track " ++ num
        performer := (s.album.albumPerformer).getD default
        index := none }
    { s with tracks := s.tracks ++ [tk], currentTrack := some s.tracks.length }
  | .titleLine v =>
    match s.currentTrack with
    | some i => { s with tracks := modifyAt s.tracks i (fun t => { t with title := v }) }
    | none => { s with album := { s.album with albumTitle := some v } }
  | .performerLine v =>
    match s.currentTrack with
    | some i => { s with tracks := modifyAt s.tracks i (fun t => { t with performer := v }) }
    | none => { s with album := { s.album with albumPerformer := some v } }
  | .index01 mm ss ff =>
    match s.currentTrack with
    | some i =>
      { s with
        tracks := modifyAt s.tracks i (fun t => { t with index := some (mm, ss, ff) })
        currentTrack := none }
    | none => s
  | .other => s

/-- Model of `parse_cue`: fold the loop body over the lines, starting from the empty
state. -/
def parse_cue (lines : List CueLine) : CueState :=
  lines.foldl parse_cue_line {}

/-- A parsed track as `split_dsf_cue` consumes it: its `file` key, the
three `index_*` keys (a track whose `INDEX 01` never fired has no such
keys and the loop would raise `KeyError`; claims quantify over tracks with
the keys present), and the three text keys the loop reads when building
the tags dict — `track_num`, `title`, `performer`, as UTF-8 bytes.  In
every track `parse_cue` produces, `track_num` is the non-empty digit
string captured by the `TRACK (\d+) AUDIO` regex and `title` defaults to
`"Track <n>"`; the text fields default to `[]` here only as constructor
convenience for examples that never read them. -/
structure SplitTrack where
  file : Option String
  index_m : Nat
  index_s : Nat
  index_f : Nat
  track_num : List Nat := []
  title : List Nat := []
  performer : List Nat := []
  deriving Repr, DecidableEq

/-- Source filename used by concrete examples. -/
def fileA : String := "a"

/-- Source filename used by the cue-parser example. -/
def fileADsf : String := "a.dsf"

/-- Genre text used by the cue-parser example. -/
def genreG : String := "g"

/-- Album title text used by the cue-parser example. -/
def titleX : String := "X"

/-- The computation `total_blocks = data_size // frame_size` (Python floor division
over signed integers; Python raises `ZeroDivisionError` on a zero
`frame_size`, Lean's `Int.fdiv` yields 0 there — claim C9 characterises
exactly when the divisor is zero). -/
def totalBlocksOf (hdr : DsfHeader) : Int :=
  Int.fdiv hdr.data_size ((hdr.block_size * hdr.channel_num : Nat) : Int)

/-- The `start_block` computation of `split_dsf_cue`'s loop for one
track. -/
def startBlockOf (hdr : DsfHeader) (t : SplitTrack) : Nat :=
  samples_to_block_index
    (time_to_samples t.index_m t.index_s t.index_f hdr.sample_rate)
    hdr.block_size

/-- The `end_block` computation of `split_dsf_cue`'s loop: the next
track's start block when the next track references the same file,
otherwise the source's total block count. -/
def endBlockOf (hdr : DsfHeader) (fn : String) (next : Option SplitTrack) : Int :=
  match next with
  | some nt => if nt.file = some fn then (startBlockOf hdr nt : Int) else totalBlocksOf hdr
  | none => totalBlocksOf hdr

/-- The block range `split_dsf_cue` computes for one track (`none` for a
track with no `FILE` reference, which the loop skips with an error
message before any block math). -/
def trackRange (hdrs : String → DsfHeader) (t : SplitTrack)
    (next : Option SplitTrack) : Option (Nat × Int) :=
  match t.file with
  | none => none
  | some fn => some (startBlockOf (hdrs fn) t, endBlockOf (hdrs fn) fn next)

/-- The block ranges `split_dsf_cue` computes for every track of the list,
in order; each track sees the header of its own file and the track after
it.  `hdrs` is the `dsf_headers` cache, total because the loop exits the
whole program on a missing source file before using its header. -/
def blockRanges (hdrs : String → DsfHeader) : List SplitTrack → List (Option (Nat × Int))
  | [] => []
  | t :: rest => trackRange hdrs t rest.head? :: blockRanges hdrs rest

/-- The UTF-8 bytes of Python's `str(n)` for a natural number. -/
def natToBytes (n : Nat) : List Nat :=
  (Nat.toDigits 10 n).map Char.toNat

/-- The tags dict `split_dsf_cue` builds for one track before calling
`write_id3_to_dsf`: the track's title, performer (the `.get` default for
`performer` never fires, since `parse_cue` sets that key at track
creation) and track number, plus the album title, genre, date, and the
total track count `str(len(tracks))` — all fixed for the whole run and
passed in as `albumTitle`, `genre`, `date`, `total_tracks`. -/
def trackTags (albumTitle genre date total_tracks : List Nat)
    (t : SplitTrack) : Tags :=
  { title := t.title
    artist := t.performer
    album := albumTitle
    track_num := t.track_num
    total_tracks := total_tracks
    genre := genre
    date := date }

/-- The observable outcome of one completed iteration of
`split_dsf_cue`'s loop: `noFile` is the "has no FILE reference" error
path (`continue`); `skipped` the zero-length-track warning inside
`write_dsf_track` (no file created) in the one case where the subsequent
unconditional tagging call returns before opening the missing file (an
empty tag blob — unreachable from `parse_cue`, whose tracks always carry
a non-empty `track_num`); `wrote out` a completed extraction with `out`
the final on-disk bytes after tagging. -/
inductive TrackResult where
  | noFile
  | skipped
  | wrote (out : List Nat)
  deriving Repr, DecidableEq

/-- One iteration of `split_dsf_cue`'s per-track loop (`srcs` maps a
source filename to that file's bytes), **including** the unconditional
`write_id3_to_dsf(out_path, ...)` call that follows `write_dsf_track`.
`none` models an uncaught exception aborting the whole run: either the
`FileNotFoundError` from `open(out_path, 'r+b')` when the degenerate-range
branch created no file yet the tag blob is non-empty, or a failure inside
`write_id3_to_dsf` itself. -/
def processTrack (hdrs : String → DsfHeader) (srcs : String → List Nat)
    (albumTitle genre date total_tracks : List Nat)
    (t : SplitTrack) (next : Option SplitTrack) : Option TrackResult :=
  match t.file with
  | none => some .noFile
  | some fn =>
    let hdr := hdrs fn
    let tags := trackTags albumTitle genre date total_tracks t
    match write_dsf_track (srcs fn) hdr (startBlockOf hdr t) (endBlockOf hdr fn next) with
    | none =>
      -- no output file exists; `write_id3_to_dsf` builds the blob first
      -- and returns if it is empty, otherwise `open` raises
      if build_id3v2_tag tags = [] then some .skipped else none
    | some out =>
      match write_id3_to_dsf out tags with
      | none => none
      | some tagged => some (.wrote tagged)

/-- What `split_dsf_cue`'s loop leaves behind: the per-track results when
every iteration completes, or the results of the iterations that did
complete before an uncaught exception aborted the run (the remaining
tracks are never processed). -/
inductive RunOutcome where
  | finished (results : List TrackResult)
  | crashed (results : List TrackResult)
  deriving Repr, DecidableEq

/-- The loop of `split_dsf_cue` over the whole track list, in order, with
an uncaught exception cutting the run short. -/
def splitTracks (hdrs : String → DsfHeader) (srcs : String → List Nat)
    (albumTitle genre date total_tracks : List Nat) :
    List SplitTrack → RunOutcome
  | [] => .finished []
  | t :: rest =>
    match processTrack hdrs srcs albumTitle genre date total_tracks t rest.head? with
    | none => .crashed []
    | some r =>
      match splitTracks hdrs srcs albumTitle genre date total_tracks rest with
      | .finished rs => .finished (r :: rs)
      | .crashed rs => .crashed (r :: rs)

/-- The whole per-track phase of `split_dsf_cue`: the loop run with the
album metadata and with `total_tracks = str(len(tracks))`. -/
def split_dsf_cue_run (hdrs : String → DsfHeader) (srcs : String → List Nat)
    (albumTitle genre date : List Nat) (tracks : List SplitTrack) : RunOutcome :=
  splitTracks hdrs srcs albumTitle genre date (natToBytes tracks.length) tracks

/-! ## Supporting lemmas -/

theorem length_packLE (w n : Nat) : (packLE w n).length = w := by
  induction w generalizing n with
  | zero => rfl
  | succ w ih => simp [packLE, ih]

theorem unpackLE_packLE (w n : Nat) :
    unpackLE (packLE w n) = n % 256 ^ w := by
  induction w generalizing n with
  | zero => simp [packLE, unpackLE, Nat.mod_one]
  | succ w ih =>
    simp only [packLE, unpackLE, ih]
    rw [pow_succ, Nat.mul_comm (256 ^ w) 256, Nat.mod_mul]

theorem unpackLE_packLE_of_lt {w n : Nat} (h : n < 256 ^ w) :
    unpackLE (packLE w n) = n := by
  rw [unpackLE_packLE, Nat.mod_eq_of_lt h]

/-- Characterisation of `time_to_samples` in closed Nat form: the exact-rational floor formula
of the spec, cleared of denominators. -/
theorem time_to_samples_eq (mm ss ff rate : Nat) :
    time_to_samples mm ss ff rate = ((mm * 60 + ss) * 75 + ff) * rate / 75 := by
  unfold time_to_samples
  rw [Int.floor_toNat]
  have h : ((mm * 60 + ss : ℚ) + (ff : ℚ) / 75) * (rate : ℚ)
      = (((mm * 60 + ss) * 75 + ff) * rate : ℕ) / (75 : ℕ) := by
    push_cast
    ring
  rw [h, Nat.floor_div_nat, Nat.floor_natCast]

/-- What the copy loop produces: the bytes of `src` from `pos`, at most
`remaining` of them, padded with zero bytes up to length `remaining`. -/
theorem copyGo_eq (src : List Nat) (bufSize : Nat) (hbuf : 1 ≤ bufSize) :
    ∀ fuel pos remaining, remaining ≤ fuel →
    copyGo src bufSize fuel pos remaining =
      (src.drop pos).take remaining ++
        List.replicate (remaining - (src.length - pos)) 0 := by
  intro fuel
  induction fuel with
  | zero =>
    intro pos remaining h
    have : remaining = 0 := Nat.le_zero.mp h
    subst this
    simp [copyGo]
  | succ fuel ih =>
    intro pos remaining h
    by_cases h0 : remaining = 0
    · subst h0; simp [copyGo]
    · rw [copyGo]
      simp only [if_neg h0]
      set to_read := min bufSize remaining with hto
      have hto1 : 1 ≤ to_read := le_min hbuf (Nat.one_le_iff_ne_zero.mpr h0)
      set data := (src.drop pos).take to_read with hdata
      have hlen' : (src.drop pos).length = src.length - pos := List.length_drop pos src
      by_cases hd : data = []
      · have hdrop : src.drop pos = [] := by
          rcases List.take_eq_nil_iff.mp hd with h' | h'
          · omega
          · exact h'
        have hlen : src.length ≤ pos := by
          have hh := congrArg List.length hdrop
          simp only [List.length_drop, List.length_nil] at hh
          omega
        rw [if_pos hd, hdrop]
        simp only [List.take_nil, List.nil_append]
        have hre : remaining - (src.length - pos) = remaining := by omega
        rw [hre]
      · rw [if_neg hd]
        have hdlen : data.length = min to_read (src.length - pos) := by
          rw [hdata, List.length_take, List.length_drop]
        have hd1 : 1 ≤ data.length := List.length_pos.mpr hd
        have hdr : data.length ≤ remaining := by
          rw [hdlen]; omega
        have hdp : data.length ≤ src.length - pos := by rw [hdlen]; omega
        have hpos : pos < src.length := by omega
        rw [ih (pos + data.length) (remaining - data.length) (by omega)]
        have hdata_eq : data = (src.drop pos).take data.length := by
          rcases Nat.le_total to_read (src.length - pos) with hc | hc
          · rw [hdlen, Nat.min_eq_left hc]
          · have hall : (src.drop pos).take to_read = src.drop pos :=
              List.take_of_length_le (by rw [hlen']; exact hc)
            have hall2 : (src.drop pos).take data.length = src.drop pos :=
              List.take_of_length_le (by rw [hlen', hdlen]; omega)
            rw [hall2, hdata, hall]
        have hsplit : (src.drop pos).take remaining =
            (src.drop pos).take data.length ++
              ((src.drop pos).drop data.length).take (remaining - data.length) := by
          rw [← List.take_add]
          congr 1
          omega
        have hdd : (src.drop pos).drop data.length = src.drop (pos + data.length) := by
          rw [List.drop_drop]
        have hcount : remaining - data.length - (src.length - (pos + data.length))
            = remaining - (src.length - pos) := by omega
        rw [hsplit, ← hdd, ← hdata_eq, List.append_assoc, hcount]

/-- Closed form of `copyLoop`. -/
theorem copyLoop_eq (src : List Nat) (pos remaining bufSize : Nat) (hbuf : 1 ≤ bufSize) :
    copyLoop src pos remaining bufSize =
      (src.drop pos).take remaining ++
        List.replicate (remaining - (src.length - pos)) 0 :=
  copyGo_eq src bufSize hbuf remaining pos remaining le_rfl

/-- The copy loop always delivers exactly `remaining` bytes. -/
theorem length_copyLoop (src : List Nat) (pos remaining bufSize : Nat)
    (hbuf : 1 ≤ bufSize) :
    (copyLoop src pos remaining bufSize).length = remaining := by
  rw [copyLoop_eq src pos remaining bufSize hbuf]
  simp only [List.length_append, List.length_take, List.length_drop,
    List.length_replicate]
  omega

/-! ## Claims -/

/-- Concrete example: a well-formed 108-byte DSF file laid out exactly as
the on-disk format prescribes: 28-byte container chunk (tag, chunk size 28,
total file size 108, metadata pointer 0), 52-byte format chunk at offset
28, and a data chunk of declared size 28 (12-byte header + 16 payload
bytes) at offset 80. -/
def wellFormedDsf : List Nat :=
  dsdMagic ++ packLE 8 28 ++ packLE 8 108 ++ packLE 8 0 ++
  fmtMagic ++ packLE 8 52 ++ packLE 4 1 ++ packLE 4 0 ++ packLE 4 2 ++
  packLE 4 2 ++ packLE 4 2822400 ++ packLE 4 1 ++ packLE 8 65536 ++
  packLE 4 4096 ++ packLE 4 0 ++
  dataMagic ++ packLE 8 28 ++ List.replicate 16 0x55

/-- C2 (code bug): `read_dsf_header` rejects a file that begins with a
well-formed 28-byte container chunk followed by a well-formed format
chunk: having never consumed the container chunk-size field, it looks for
`b'fmt '` at offset 20, where the metadata pointer sits, and raises
`ValueError`.  The first conjunct certifies the input is well-formed
(correct tag positions and field values per the on-disk layout); the last
is the rejection. -/
theorem claim2_wellformed_rejected :
    (wellFormedDsf.take 4 = dsdMagic ∧
     fieldAt wellFormedDsf 4 8 = 28 ∧
     fieldAt wellFormedDsf 12 8 = 108 ∧
     fieldAt wellFormedDsf 20 8 = 0 ∧
     (wellFormedDsf.drop 28).take 4 = fmtMagic ∧
     (wellFormedDsf.drop 80).take 4 = dataMagic ∧
     wellFormedDsf.length = 108) ∧
    read_dsf_header wellFormedDsf = none := by decide

/-- C4 (counterexample): `time_to_samples(2, 0, 0, 2822400)` is
338688000 — two *minutes* at DSD64 rate — not the claimed 5644800 (which
is two *seconds*, i.e. `time_to_samples(0, 2, 0, 2822400)`). -/
theorem claim4_counterexample :
    time_to_samples 2 0 0 2822400 = 338688000 ∧ (338688000 : Nat) ≠ 5644800 := by
  constructor
  · rw [time_to_samples_eq]
  · decide

/-- C4 (amended): over the exact-rational model, `time_to_samples`
computes the truncating floor `((mm*60 + ss)*75 + ff) * rate / 75` and
`samples_to_block_index s b = s / (b * 8)`; the concrete instances are
`time_to_samples(2, 0, 0, 2822400) = 338688000` (not 5644800, which is
`time_to_samples(0, 2, 0, 2822400)`) and
`samples_to_block_index(5644800, 4096) = 172`. -/
theorem claim4_block_math :
    (∀ mm ss ff rate : Nat,
      time_to_samples mm ss ff rate = ((mm * 60 + ss) * 75 + ff) * rate / 75) ∧
    (∀ s b : Nat, samples_to_block_index s b = s / (b * 8)) ∧
    time_to_samples 2 0 0 2822400 = 338688000 ∧
    time_to_samples 0 2 0 2822400 = 5644800 ∧
    samples_to_block_index 5644800 4096 = 172 := by
  refine ⟨time_to_samples_eq, fun s b => rfl, ?_, ?_, by decide⟩
  · rw [time_to_samples_eq]
  · rw [time_to_samples_eq]

/-- Concrete example: an 80-byte source whose three tags sit exactly where
`read_dsf_header` looks for them (offsets 0, 20, 68) and whose every
numeric field is zero — in particular `block_size = 0` and
`channel_num = 0`. -/
def zeroGeomDsf : List Nat :=
  dsdMagic ++ List.replicate 16 0 ++ fmtMagic ++ List.replicate 44 0 ++
  dataMagic ++ List.replicate 8 0

/-- The header `read_dsf_header` builds from `zeroGeomDsf`. -/
def zeroGeomHeader : DsfHeader :=
  { total_file_size := 0, metadata_offset := 0, fmt_chunk_size := 0,
    fmt_version := 0, format_id := 0, channel_type := 0, channel_num := 0,
    sample_rate := 0, bits_per_sample := 0, sample_count := 0,
    block_size := 0, data_offset := 80, data_size := -12 }

/-- C9: `read_dsf_header` accepts any byte source in which the three tags
it checks match (and that is long enough to supply all fixed-width
fields), returning the raw decoded numeric fields with no validation; the
divisors of the derived computations — `frame_size = block_size *
channel_num` (used for `total_blocks = data_size // frame_size`) and
`block_size * 8` (used by `samples_to_block_index`) — are nonzero exactly
when `block_size ≥ 1` and `channel_num ≥ 1`; and the concrete tag-matching
source `zeroGeomDsf` with `block_size = 0` and `channel_num = 0` is
accepted and yields zero divisors downstream. -/
theorem claim9_no_validation :
    (∀ file : List Nat, 80 ≤ file.length →
      file.take 4 = dsdMagic →
      (file.drop 20).take 4 = fmtMagic →
      (file.drop 68).take 4 = dataMagic →
      read_dsf_header file = some
        { total_file_size := fieldAt file 4 8
          metadata_offset := fieldAt file 12 8
          fmt_chunk_size := fieldAt file 24 8
          fmt_version := fieldAt file 32 4
          format_id := fieldAt file 36 4
          channel_type := fieldAt file 40 4
          channel_num := fieldAt file 44 4
          sample_rate := fieldAt file 48 4
          bits_per_sample := fieldAt file 52 4
          sample_count := fieldAt file 56 8
          block_size := fieldAt file 64 4
          data_offset := 80
          data_size := (fieldAt file 72 8 : Int) - 12 }) ∧
    (∀ hdr : DsfHeader,
      (hdr.block_size * hdr.channel_num ≠ 0 ∧ hdr.block_size * 8 ≠ 0) ↔
        (1 ≤ hdr.block_size ∧ 1 ≤ hdr.channel_num)) ∧
    (read_dsf_header zeroGeomDsf = some zeroGeomHeader ∧
      zeroGeomHeader.block_size * zeroGeomHeader.channel_num = 0 ∧
      zeroGeomHeader.block_size * 8 = 0) := by
  refine ⟨?_, ?_, by decide⟩
  · intro file hlen h1 h2 h3
    unfold read_dsf_header
    rw [if_neg (not_not_intro h1), if_neg (by omega), if_neg (not_not_intro h2),
      if_neg (by omega), if_neg (not_not_intro h3), if_neg (by omega)]
  · intro hdr
    rw [Nat.mul_ne_zero_iff, Nat.mul_ne_zero_iff]
    omega

/-- C9 witness: the general acceptance statement applied to the concrete
tag-matching source `zeroGeomDsf`. -/
theorem claim9_witness :
    read_dsf_header zeroGeomDsf = some
      { total_file_size := fieldAt zeroGeomDsf 4 8
        metadata_offset := fieldAt zeroGeomDsf 12 8
        fmt_chunk_size := fieldAt zeroGeomDsf 24 8
        fmt_version := fieldAt zeroGeomDsf 32 4
        format_id := fieldAt zeroGeomDsf 36 4
        channel_type := fieldAt zeroGeomDsf 40 4
        channel_num := fieldAt zeroGeomDsf 44 4
        sample_rate := fieldAt zeroGeomDsf 48 4
        bits_per_sample := fieldAt zeroGeomDsf 52 4
        sample_count := fieldAt zeroGeomDsf 56 8
        block_size := fieldAt zeroGeomDsf 64 4
        data_offset := 80
        data_size := (fieldAt zeroGeomDsf 72 8 : Int) - 12 } :=
  claim9_no_validation.1 zeroGeomDsf (by decide) (by decide) (by decide) (by decide)

/-- The output of a non-degenerate `write_dsf_track` call, in closed
form. -/
theorem write_dsf_track_eq (src : List Nat) (hdr : DsfHeader) (s e : Int)
    (h : s < e) :
    write_dsf_track src hdr s e = some (
      dsdMagic ++ packLE 8 28 ++
      packLE 8 (28 + hdr.fmt_chunk_size +
        (12 + (e - s).toNat * (hdr.block_size * hdr.channel_num))) ++
      packLE 8 0 ++
      fmtMagic ++ packLE 8 hdr.fmt_chunk_size ++
      packLE 4 hdr.fmt_version ++ packLE 4 hdr.format_id ++
      packLE 4 hdr.channel_type ++ packLE 4 hdr.channel_num ++
      packLE 4 hdr.sample_rate ++ packLE 4 hdr.bits_per_sample ++
      packLE 8 ((e - s).toNat * hdr.block_size * 8) ++
      packLE 4 hdr.block_size ++ packLE 4 0 ++
      (if 52 < hdr.fmt_chunk_size then
          (src.drop (28 + 52)).take (hdr.fmt_chunk_size - 52)
        else []) ++
      dataMagic ++
      packLE 8 (12 + (e - s).toNat * (hdr.block_size * hdr.channel_num)) ++
      copyLoop src
        (hdr.data_offset + s.toNat * (hdr.block_size * hdr.channel_num))
        ((e - s).toNat * (hdr.block_size * hdr.channel_num))
        (hdr.block_size * hdr.channel_num * 64)) := by
  simp only [write_dsf_track]
  rw [if_neg (show ¬(e - s ≤ 0) by omega)]

/-- A closed `write_dsf_track` call with a degenerate range yields no
file. -/
theorem write_dsf_track_degenerate (src : List Nat) (hdr : DsfHeader)
    (s e : Int) (h : e ≤ s) : write_dsf_track src hdr s e = none := by
  simp only [write_dsf_track]
  rw [if_pos (show e - s ≤ 0 by omega)]

/-- The reader `read_dsf_header` rejects anything that starts with the on-disk
28-byte container chunk with a zero metadata pointer: at offset 20 it
finds `00 00 00 00` where it expects `b'fmt '`. -/
theorem read_header_zero_meta (T : Nat) (R : List Nat) :
    read_dsf_header (dsdMagic ++ (packLE 8 28 ++ (packLE 8 T ++ (packLE 8 0 ++ R)))) = none := by
  set L := dsdMagic ++ (packLE 8 28 ++ (packLE 8 T ++ (packLE 8 0 ++ R))) with hL
  have hregroup : L = (dsdMagic ++ packLE 8 28 ++ packLE 8 T) ++ (packLE 8 0 ++ R) := by
    rw [hL]
    simp [List.append_assoc]
  have hpre : (dsdMagic ++ packLE 8 28 ++ packLE 8 T).length = 20 := by
    simp [dsdMagic, length_packLE]
  have htake : L.take 4 = dsdMagic := by
    rw [hL]
    exact List.take_left' rfl
  have hlen : 20 ≤ L.length := by
    rw [hregroup]
    simp only [List.length_append, hpre]
    omega
  have hfmt : (L.drop 20).take 4 ≠ fmtMagic := by
    rw [hregroup, List.drop_left' hpre]
    have hz : (packLE 8 0 ++ R).take 4 = [0, 0, 0, 0] := rfl
    rw [hz]
    decide
  unfold read_dsf_header
  rw [if_neg (not_not_intro htake), if_neg (by omega), if_pos hfmt]

/-- C1 (code bug): `read_dsf_header` fails on **every** file
`write_dsf_track` produces.  The writer emits the on-disk 28-byte
container chunk (tag, chunk size 28, total size, metadata pointer 0), but
the reader — which never consumes the chunk-size field — looks for
`b'fmt '` at offset 20, finds the first four bytes of the metadata pointer
(`00 00 00 00`), and raises `ValueError`; so no field of the written file
can be read back at all. -/
theorem claim1_roundtrip_fails (src : List Nat) (hdr : DsfHeader)
    (s e : Int) (out : List Nat) (h : write_dsf_track src hdr s e = some out) :
    read_dsf_header out = none := by
  have hse : s < e := by
    rcases lt_or_le s e with h' | h'
    · exact h'
    · rw [write_dsf_track_degenerate src hdr s e h'] at h
      exact Option.noConfusion h
  rw [write_dsf_track_eq src hdr s e hse] at h
  injection h with h
  rw [← h]
  simp only [List.append_assoc]
  exact read_header_zero_meta _ _

/-- Concrete header for witness extractions: 2 channels, 1-byte blocks,
DSD64 rate, 16-byte payload (8 blocks of 2 bytes each). -/
def exHeader : DsfHeader :=
  { total_file_size := 108, metadata_offset := 0, fmt_chunk_size := 52,
    fmt_version := 1, format_id := 0, channel_type := 2, channel_num := 2,
    sample_rate := 2822400, bits_per_sample := 1, sample_count := 64,
    block_size := 1, data_offset := 80, data_size := 16 }

/-- The file `write_dsf_track` writes for blocks `[0, 1)` of
`wellFormedDsf` under `exHeader`. -/
def exOut1 : List Nat := (write_dsf_track wellFormedDsf exHeader 0 1).getD []

/-- C1 witness: a concrete completed extraction whose output the reader
rejects. -/
theorem claim1_witness :
    write_dsf_track wellFormedDsf exHeader 0 1 = some exOut1 ∧
    read_dsf_header exOut1 = none :=
  ⟨by decide, claim1_roundtrip_fails wellFormedDsf exHeader 0 1 exOut1 (by decide)⟩

/-- C10: every completed `write_dsf_track` output begins with `b'DSD '`,
so the `assert magic == b'DSD '` in `write_id3_to_dsf` holds on it and the
tagging step never raises on the orchestrator's path (for any tag set —
including the empty one, where tagging returns before the assert). -/
theorem claim10_magic_assert (src : List Nat) (hdr : DsfHeader)
    (s e : Int) (out : List Nat) (h : write_dsf_track src hdr s e = some out) :
    out.take 4 = dsdMagic ∧ ∀ tags : Tags, write_id3_to_dsf out tags ≠ none := by
  have hse : s < e := by
    rcases lt_or_le s e with h' | h'
    · exact h'
    · rw [write_dsf_track_degenerate src hdr s e h'] at h
      exact Option.noConfusion h
  rw [write_dsf_track_eq src hdr s e hse] at h
  injection h with h
  have htake : out.take 4 = dsdMagic := by
    rw [← h]
    simp only [List.append_assoc]
    exact List.take_left' rfl
  have hlen : 20 ≤ out.length := by
    rw [← h]
    simp only [List.append_assoc, List.length_append, length_packLE, dsdMagic,
      fmtMagic, dataMagic, List.length_cons, List.length_nil]
    omega
  refine ⟨htake, fun tags => ?_⟩
  unfold write_id3_to_dsf
  by_cases hb : build_id3v2_tag tags = []
  · rw [if_pos hb]
    exact Option.noConfusion
  · rw [if_neg hb, if_neg (not_not_intro htake), if_neg (by omega)]
    exact Option.noConfusion

/-- The file `write_dsf_track` writes for blocks `[0, 2)` of
`wellFormedDsf` under `exHeader`. -/
def exOut10 : List Nat := (write_dsf_track wellFormedDsf exHeader 0 2).getD []

/-- Tag set used by the C10 witness. -/
def exTags10 : Tags := { title := [0x41] }

/-- C10 witness: a concrete completed extraction starts with `b'DSD '` and
tagging it does not raise. -/
theorem claim10_witness :
    exOut10.take 4 = dsdMagic ∧ write_id3_to_dsf exOut10 exTags10 ≠ none :=
  ⟨(claim10_magic_assert wellFormedDsf exHeader 0 2 exOut10 (by decide)).1,
   (claim10_magic_assert wellFormedDsf exHeader 0 2 exOut10 (by decide)).2 exTags10⟩

/-- Every tags dict with a non-empty track number yields a non-empty tag
blob: the TRCK frame alone is non-empty.  (Every track `parse_cue`
produces has a non-empty `track_num`, the digits of the `TRACK` regex, so
on the orchestrator's path the blob is never empty.) -/
theorem build_id3v2_tag_ne_nil_of_track_num (tg : Tags) (h : tg.track_num ≠ []) :
    build_id3v2_tag tg ≠ [] := by
  have htext : ∀ text : List Nat, text ≠ [] → id3_text_frame trckId text ≠ [] := by
    intro text ht
    unfold id3_text_frame
    rw [if_neg ht]
    simp [trckId]
  have hTF : (if tg.track_num ≠ [] then
      id3_text_frame trckId
        (if tg.total_tracks ≠ [] then tg.track_num ++ [0x2f] ++ tg.total_tracks
         else tg.track_num)
      else []) ≠ [] := by
    rw [if_pos h]
    by_cases h2 : tg.total_tracks ≠ []
    · rw [if_pos h2]
      exact htext _ (by simp)
    · rw [if_neg h2]
      exact htext _ h
  simp only [build_id3v2_tag]
  have hframes : id3_text_frame tit2Id tg.title ++ id3_text_frame tpe1Id tg.artist ++
      id3_text_frame talbId tg.album ++
      (if tg.track_num ≠ [] then
        id3_text_frame trckId
          (if tg.total_tracks ≠ [] then tg.track_num ++ [0x2f] ++ tg.total_tracks
           else tg.track_num)
        else []) ++
      id3_text_frame tconId tg.genre ++ id3_text_frame tyerId tg.date ≠ [] := by
    intro hc
    exact hTF (List.append_eq_nil.mp
      (List.append_eq_nil.mp (List.append_eq_nil.mp hc).1).1).2
  rw [if_neg hframes]
  simp

/-- C7 (code bug): a degenerate block range (`end_block ≤ start_block`)
does make `write_dsf_track` return with a warning before creating or
opening any output file — but the loop does **not** go on to process the
remaining tracks.  `split_dsf_cue` calls `write_id3_to_dsf(out_path, ...)`
unconditionally after `write_dsf_track`, and for every track `parse_cue`
produces the tag blob is non-empty (`track_num` is a non-empty digit
string), so `open(out_path, 'r+b')` raises an uncaught
`FileNotFoundError` on the never-created file and the run aborts with the
subsequent tracks unprocessed. -/
theorem claim7_degenerate_crashes :
    (∀ (src : List Nat) (hdr : DsfHeader) (s e : Int), e ≤ s →
      write_dsf_track src hdr s e = none) ∧
    (∀ (hdrs : String → DsfHeader) (srcs : String → List Nat)
       (albumTitle genre date total_tracks : List Nat)
       (rest : List SplitTrack) (t : SplitTrack) (fn : String),
      t.file = some fn →
      endBlockOf (hdrs fn) fn rest.head? ≤ (startBlockOf (hdrs fn) t : Int) →
      t.track_num ≠ [] →
      processTrack hdrs srcs albumTitle genre date total_tracks t rest.head? = none ∧
      splitTracks hdrs srcs albumTitle genre date total_tracks (t :: rest)
        = RunOutcome.crashed []) := by
  constructor
  · exact fun src hdr s e h => write_dsf_track_degenerate src hdr s e h
  · intro hdrs srcs albumTitle genre date total_tracks rest t fn hf hdeg htn
    have hblob : build_id3v2_tag (trackTags albumTitle genre date total_tracks t) ≠ [] :=
      build_id3v2_tag_ne_nil_of_track_num _ (by simpa [trackTags] using htn)
    have hwd : write_dsf_track (srcs fn) (hdrs fn) (startBlockOf (hdrs fn) t)
        (endBlockOf (hdrs fn) fn rest.head?) = none :=
      write_dsf_track_degenerate _ _ _ _ hdeg
    have hproc : processTrack hdrs srcs albumTitle genre date total_tracks t rest.head?
        = none := by
      simp only [processTrack, hf, hwd, if_neg hblob]
    exact ⟨hproc, by simp [splitTracks, hproc]⟩

/-- Header used by the C7 witness: 75 Hz, one 1-byte block per frame,
16 data bytes. -/
def w7Hdr : DsfHeader :=
  { total_file_size := 108, metadata_offset := 0, fmt_chunk_size := 52,
    fmt_version := 1, format_id := 0, channel_type := 1, channel_num := 1,
    sample_rate := 75, bits_per_sample := 1, sample_count := 128,
    block_size := 1, data_offset := 80, data_size := 16 }

/-- Header cache for the C7 witness. -/
def w7Hdrs : String → DsfHeader := fun _ => w7Hdr

/-- Source-file contents for the C7 witness. -/
def w7Srcs : String → List Nat := fun _ => wellFormedDsf

/-- A track whose block range is degenerate because the next track of the
same file starts at the same timecode; track number "1", title "T". -/
def w7Deg : SplitTrack :=
  { file := some fileA, index_m := 0, index_s := 1, index_f := 0,
    track_num := [0x31], title := [0x54], performer := [] }

/-- The track following the degenerate one (never reached). -/
def w7Good : SplitTrack :=
  { file := some fileA, index_m := 0, index_s := 1, index_f := 0,
    track_num := [0x32], title := [0x54], performer := [] }

/-- C7 witness: concretely, the degenerate first track makes the tagging
call crash on the missing output file, and the run aborts with the second
track unprocessed. -/
theorem claim7_witness :
    processTrack w7Hdrs w7Srcs [] [] [] [0x32] w7Deg ([w7Good].head?) = none ∧
    splitTracks w7Hdrs w7Srcs [] [] [] [0x32] [w7Deg, w7Good]
      = RunOutcome.crashed [] :=
  claim7_degenerate_crashes.2 w7Hdrs w7Srcs [] [] [] [0x32] [w7Good] w7Deg fileA rfl
    (by simp [endBlockOf, startBlockOf, samples_to_block_index, time_to_samples_eq,
          w7Hdrs, w7Hdr, w7Deg, w7Good])
    (by decide)

/-- C6: when the source supplies fewer than
`(end_block - start_block) * frame_size` bytes from
`data_offset + start_block * frame_size`, `write_dsf_track` still
completes (no abort): the output is the full header followed by a payload
of exactly the declared length, consisting of the bytes the source did
supply, padded with zero bytes. -/
theorem claim6_truncated_zero_fill (src : List Nat) (hdr : DsfHeader)
    (s e : Int) (hs : 0 ≤ s) (hse : s < e)
    (htrunc : src.length <
      hdr.data_offset + s.toNat * (hdr.block_size * hdr.channel_num)
        + (e - s).toNat * (hdr.block_size * hdr.channel_num)) :
    write_dsf_track src hdr s e = some (
      dsdMagic ++ packLE 8 28 ++
      packLE 8 (28 + hdr.fmt_chunk_size +
        (12 + (e - s).toNat * (hdr.block_size * hdr.channel_num))) ++
      packLE 8 0 ++
      fmtMagic ++ packLE 8 hdr.fmt_chunk_size ++
      packLE 4 hdr.fmt_version ++ packLE 4 hdr.format_id ++
      packLE 4 hdr.channel_type ++ packLE 4 hdr.channel_num ++
      packLE 4 hdr.sample_rate ++ packLE 4 hdr.bits_per_sample ++
      packLE 8 ((e - s).toNat * hdr.block_size * 8) ++
      packLE 4 hdr.block_size ++ packLE 4 0 ++
      (if 52 < hdr.fmt_chunk_size then
          (src.drop (28 + 52)).take (hdr.fmt_chunk_size - 52)
        else []) ++
      dataMagic ++
      packLE 8 (12 + (e - s).toNat * (hdr.block_size * hdr.channel_num)) ++
      ((src.drop (hdr.data_offset + s.toNat * (hdr.block_size * hdr.channel_num))).take
          ((e - s).toNat * (hdr.block_size * hdr.channel_num)) ++
        List.replicate
          ((e - s).toNat * (hdr.block_size * hdr.channel_num)
            - (src.length -
                (hdr.data_offset + s.toNat * (hdr.block_size * hdr.channel_num)))) 0)) ∧
    ((src.drop (hdr.data_offset + s.toNat * (hdr.block_size * hdr.channel_num))).take
        ((e - s).toNat * (hdr.block_size * hdr.channel_num)) ++
      List.replicate
        ((e - s).toNat * (hdr.block_size * hdr.channel_num)
          - (src.length -
              (hdr.data_offset + s.toNat * (hdr.block_size * hdr.channel_num)))) 0).length
      = (e - s).toNat * (hdr.block_size * hdr.channel_num) := by
  have hlenpay : ∀ pos L : Nat,
      ((src.drop pos).take L ++ List.replicate (L - (src.length - pos)) 0).length = L := by
    intro pos L
    simp only [List.length_append, List.length_take, List.length_drop,
      List.length_replicate]
    omega
  rw [write_dsf_track_eq src hdr s e hse]
  refine ⟨?_, hlenpay _ _⟩
  by_cases hfs : hdr.block_size * hdr.channel_num = 0
  · simp [hfs, copyLoop, copyGo]
  · have hbuf : 1 ≤ hdr.block_size * hdr.channel_num * 64 := by
      have := Nat.one_le_iff_ne_zero.mpr hfs
      omega
    rw [copyLoop_eq _ _ _ _ hbuf]

/-- C6 witness: extracting blocks `[0, 20)` (40 payload bytes) from the
108-byte `wellFormedDsf`, whose data region holds only 28 bytes from
offset 80, completes with the full 40-byte payload, zero-padded. -/
theorem claim6_witness :
    write_dsf_track wellFormedDsf exHeader 0 20 = some (
      dsdMagic ++ packLE 8 28 ++ packLE 8 132 ++ packLE 8 0 ++
      fmtMagic ++ packLE 8 52 ++ packLE 4 1 ++ packLE 4 0 ++ packLE 4 2 ++
      packLE 4 2 ++ packLE 4 2822400 ++ packLE 4 1 ++ packLE 8 160 ++
      packLE 4 1 ++ packLE 4 0 ++ [] ++ dataMagic ++ packLE 8 52 ++
      ((wellFormedDsf.drop 80).take 40 ++ List.replicate 12 0)) ∧
    ((wellFormedDsf.drop 80).take 40 ++ List.replicate 12 0).length = 40 :=
  claim6_truncated_zero_fill wellFormedDsf exHeader 0 20 (by decide) (by decide)
    (by decide)

/-- Generic helper: dropping an appended prefix of known length plus `k`
drops `k` of the suffix. -/
theorem drop_append_right {α : Type} (A B : List α) (n k : Nat)
    (h : A.length = n) : (A ++ B).drop (n + k) = B.drop k := by
  rw [← List.drop_drop, List.drop_left' h]

/-- Closed form of `write_id3_to_dsf` on a file whose recorded total size at offset 12 is
`S` and whose magic checks out: the two patched fields and the appended
blob, in closed form. -/
theorem write_id3_to_dsf_eq (file : List Nat) (tags : Tags) (S : Nat)
    (hS : fieldAt file 12 8 = S) (hlen : file.length = S) (h28 : 28 ≤ S)
    (hmagic : file.take 4 = dsdMagic) (hblob : build_id3v2_tag tags ≠ []) :
    write_id3_to_dsf file tags = some
      (file.take 12 ++ packLE 8 (S + (build_id3v2_tag tags).length) ++
        packLE 8 S ++ file.drop 28 ++ build_id3v2_tag tags) := by
  simp only [write_id3_to_dsf]
  rw [if_neg hblob, if_neg (not_not_intro hmagic), if_neg (by omega), hS]
  congr 1
  have htake12 : (file.take 12).length = 12 := by
    rw [List.length_take]
    omega
  have h1 : writeAt file 12 (packLE 8 (S + (build_id3v2_tag tags).length))
      = file.take 12 ++ packLE 8 (S + (build_id3v2_tag tags).length) ++ file.drop 20 := by
    unfold writeAt
    rw [length_packLE]
    have hz : 12 - file.length = 0 := by omega
    rw [hz]
    simp [List.append_assoc]
  rw [h1]
  have hAB : (file.take 12 ++ packLE 8 (S + (build_id3v2_tag tags).length)).length = 20 := by
    simp [htake12, length_packLE]
  unfold writeAt
  rw [length_packLE]
  have htk : (file.take 12 ++ packLE 8 (S + (build_id3v2_tag tags).length)
      ++ file.drop 20).take 20
      = file.take 12 ++ packLE 8 (S + (build_id3v2_tag tags).length) :=
    List.take_left' hAB
  have hdp : (file.take 12 ++ packLE 8 (S + (build_id3v2_tag tags).length)
      ++ file.drop 20).drop (20 + 8) = file.drop 28 := by
    rw [drop_append_right _ _ 20 8 hAB, List.drop_drop]
  have hrep : 20 - (file.take 12 ++ packLE 8 (S + (build_id3v2_tag tags).length)
      ++ file.drop 20).length = 0 := by
    simp only [List.length_append, htake12, length_packLE, List.length_drop]
    omega
  rw [htk, hdp, hrep]
  simp [List.append_assoc]

/-- C5: appending a non-empty tag blob of length `L` to a file whose
recorded and actual size is `S` patches the total-size field to `S + L`
and the metadata pointer to `S`, appends the blob at `[S, S + L)`, leaves
every other byte unchanged, and — whenever both the track number and the
total track count are non-empty — renders the TRCK frame text as
`track_num ++ "/" ++ total_tracks`. -/
theorem claim5_tag_patch (file : List Nat) (tags : Tags) (S : Nat)
    (hS : fieldAt file 12 8 = S) (hlen : file.length = S)
    (hmagic : file.take 4 = dsdMagic) (h28 : 28 ≤ S)
    (hbound : S + (build_id3v2_tag tags).length < 2 ^ 64)
    (hblob : build_id3v2_tag tags ≠ []) :
    (∀ out, write_id3_to_dsf file tags = some out →
      fieldAt out 12 8 = S + (build_id3v2_tag tags).length ∧
      fieldAt out 20 8 = S ∧
      out.length = S + (build_id3v2_tag tags).length ∧
      out.drop S = build_id3v2_tag tags ∧
      out.take 12 = file.take 12 ∧
      (out.drop 28).take (S - 28) = (file.drop 28).take (S - 28)) ∧
    write_id3_to_dsf file tags ≠ none ∧
    (∀ tg : Tags, tg.track_num ≠ [] → tg.total_tracks ≠ [] →
      List.IsInfix
        (id3_text_frame trckId (tg.track_num ++ [0x2f] ++ tg.total_tracks))
        (build_id3v2_tag tg)) := by
  have hw := write_id3_to_dsf_eq file tags S hS hlen h28 hmagic hblob
  have h256 : (256 : Nat) ^ 8 = 2 ^ 64 := by norm_num
  have htake12 : (file.take 12).length = 12 := by
    rw [List.length_take]
    omega
  have hdrop28 : (file.drop 28).length = S - 28 := by
    rw [List.length_drop, hlen]
  refine ⟨?_, ?_, ?_⟩
  · intro out hout
    rw [hw] at hout
    injection hout with hout
    subst hout
    constructor
    · show fieldAt (file.take 12 ++ _ ++ _ ++ _ ++ _) 12 8 = _
      unfold fieldAt
      have hr : file.take 12 ++ packLE 8 (S + (build_id3v2_tag tags).length) ++
          packLE 8 S ++ file.drop 28 ++ build_id3v2_tag tags
          = file.take 12 ++ (packLE 8 (S + (build_id3v2_tag tags).length) ++
            (packLE 8 S ++ (file.drop 28 ++ build_id3v2_tag tags))) := by
        simp [List.append_assoc]
      rw [hr, List.drop_left' htake12, List.take_left' (length_packLE 8 _),
        unpackLE_packLE, h256, Nat.mod_eq_of_lt hbound]
    constructor
    · unfold fieldAt
      have hr : file.take 12 ++ packLE 8 (S + (build_id3v2_tag tags).length) ++
          packLE 8 S ++ file.drop 28 ++ build_id3v2_tag tags
          = (file.take 12 ++ packLE 8 (S + (build_id3v2_tag tags).length)) ++
            (packLE 8 S ++ (file.drop 28 ++ build_id3v2_tag tags)) := by
        simp [List.append_assoc]
      have hAB : (file.take 12 ++ packLE 8 (S + (build_id3v2_tag tags).length)).length = 20 := by
        simp [htake12, length_packLE]
      rw [hr, List.drop_left' hAB, List.take_left' (length_packLE 8 _),
        unpackLE_packLE, h256, Nat.mod_eq_of_lt (by omega)]
    constructor
    · simp only [List.length_append, htake12, length_packLE, hdrop28]
      omega
    constructor
    · have hpre : (file.take 12 ++ packLE 8 (S + (build_id3v2_tag tags).length) ++
          packLE 8 S ++ file.drop 28).length = S := by
        simp only [List.length_append, htake12, length_packLE, hdrop28]
        omega
      exact List.drop_left' hpre
    constructor
    · have hr : file.take 12 ++ packLE 8 (S + (build_id3v2_tag tags).length) ++
          packLE 8 S ++ file.drop 28 ++ build_id3v2_tag tags
          = file.take 12 ++ (packLE 8 (S + (build_id3v2_tag tags).length) ++
            (packLE 8 S ++ (file.drop 28 ++ build_id3v2_tag tags))) := by
        simp [List.append_assoc]
      rw [hr, List.take_left' htake12]
    · have hr : file.take 12 ++ packLE 8 (S + (build_id3v2_tag tags).length) ++
          packLE 8 S ++ file.drop 28 ++ build_id3v2_tag tags
          = (file.take 12 ++ packLE 8 (S + (build_id3v2_tag tags).length) ++
            packLE 8 S) ++ (file.drop 28 ++ build_id3v2_tag tags) := by
        simp [List.append_assoc]
      have hABC : (file.take 12 ++ packLE 8 (S + (build_id3v2_tag tags).length) ++
          packLE 8 S).length = 28 := by
        simp [htake12, length_packLE]
      rw [hr, List.drop_left' hABC, List.take_left' hdrop28, ← hdrop28,
        List.take_length]
  · rw [hw]
    exact Option.noConfusion
  · intro tg h1 h2
    have htext : (tg.track_num ++ [0x2f] ++ tg.total_tracks) ≠ [] := by simp
    have hTF : id3_text_frame trckId (tg.track_num ++ [0x2f] ++ tg.total_tracks) ≠ [] := by
      unfold id3_text_frame
      rw [if_neg htext]
      simp [trckId]
    simp only [build_id3v2_tag, if_pos h1, if_pos h2]
    have hframes : id3_text_frame tit2Id tg.title ++ id3_text_frame tpe1Id tg.artist ++
        id3_text_frame talbId tg.album ++
        id3_text_frame trckId (tg.track_num ++ [0x2f] ++ tg.total_tracks) ++
        id3_text_frame tconId tg.genre ++ id3_text_frame tyerId tg.date ≠ [] := by
      intro hc
      exact hTF (List.append_eq_nil.mp
        (List.append_eq_nil.mp (List.append_eq_nil.mp hc).1).1).2
    rw [if_neg hframes]
    refine ⟨([0x49, 0x44, 0x33, 0x03, 0x00, 0x00] ++
      id3_syncsafe (id3_text_frame tit2Id tg.title ++ id3_text_frame tpe1Id tg.artist ++
        id3_text_frame talbId tg.album ++
        id3_text_frame trckId (tg.track_num ++ [0x2f] ++ tg.total_tracks) ++
        id3_text_frame tconId tg.genre ++ id3_text_frame tyerId tg.date).length) ++
      id3_text_frame tit2Id tg.title ++ id3_text_frame tpe1Id tg.artist ++
      id3_text_frame talbId tg.album,
      id3_text_frame tconId tg.genre ++ id3_text_frame tyerId tg.date, ?_⟩
    simp [List.append_assoc]

/-- A 96-byte file for the C5 witness: on-disk container chunk recording
total size 96, followed by 68 filler bytes. -/
def exTagFile : List Nat :=
  dsdMagic ++ packLE 8 28 ++ packLE 8 96 ++ packLE 8 0 ++ List.replicate 68 7

/-- Tag set for the C5 witness: title "A", artist "B", track "3" of
"10". -/
def exTags5 : Tags :=
  { title := [0x41], artist := [0x42], track_num := [0x33],
    total_tracks := [0x31, 0x30] }

/-- The bytes `write_id3_to_dsf` leaves on disk for the C5 witness. -/
def exTagOut5 : List Nat := (write_id3_to_dsf exTagFile exTags5).getD []

/-- C5 witness: tagging the concrete 96-byte file patches the total size
to `96 + L`, the metadata pointer to 96, appends the blob at byte 96, and
the blob's TRCK frame text is `"3/10"`. -/
theorem claim5_witness :
    fieldAt exTagOut5 12 8 = 96 + (build_id3v2_tag exTags5).length ∧
    fieldAt exTagOut5 20 8 = 96 ∧
    exTagOut5.drop 96 = build_id3v2_tag exTags5 ∧
    write_id3_to_dsf exTagFile exTags5 ≠ none ∧
    List.IsInfix (id3_text_frame trckId [0x33, 0x2f, 0x31, 0x30])
      (build_id3v2_tag exTags5) := by
  have h := claim5_tag_patch exTagFile exTags5 96 (by decide) (by decide)
    (by decide) (by decide) (by decide) (by decide)
  have h1 := h.1 exTagOut5 (by decide)
  exact ⟨h1.1, h1.2.1, h1.2.2.2.1, h.2.1, h.2.2 exTags5 (by decide) (by decide)⟩

/-- Whether a cue line is a `TRACK` directive. -/
def isTrackDirective : CueLine → Bool
  | .trackLine _ => true
  | _ => false

/-- With no track open and no `TRACK` directive in sight, the parser never
touches the track list and never opens a track. -/
theorem parse_no_track_freezes (ls : List CueLine) : ∀ s : CueState,
    s.currentTrack = none →
    (∀ l ∈ ls, isTrackDirective l = false) →
    (ls.foldl parse_cue_line s).tracks = s.tracks ∧
    (ls.foldl parse_cue_line s).currentTrack = none := by
  induction ls with
  | nil => intro s h _; exact ⟨rfl, h⟩
  | cons l ls ih =>
    intro s hcur hno
    have hl := hno l (by simp)
    have hstep : (parse_cue_line s l).tracks = s.tracks ∧
        (parse_cue_line s l).currentTrack = none := by
      cases l with
      | fileLine n => exact ⟨rfl, hcur⟩
      | remGenre v => exact ⟨rfl, hcur⟩
      | remDate v => exact ⟨rfl, hcur⟩
      | trackLine n => simp [isTrackDirective] at hl
      | titleLine v => simp [parse_cue_line, hcur]
      | performerLine v => simp [parse_cue_line, hcur]
      | index01 mm ss ff => simp [parse_cue_line, hcur]
      | other => exact ⟨rfl, hcur⟩
    rw [List.foldl_cons]
    have hrest := ih (parse_cue_line s l) hstep.2
      (fun l' hl' => hno l' (List.mem_cons_of_mem l hl'))
    exact ⟨hrest.1.trans hstep.1, hrest.2⟩

/-- In-place mutation through the open-track alias: the entry at the open
index is the mutated dict. -/
theorem modifyAt_getElem_self (l : List CueTrack) (i : Nat)
    (f : CueTrack → CueTrack) (t : CueTrack) (h : l[i]? = some t) :
    (modifyAt l i f)[i]? = some (f t) := by
  have hi : i < l.length := (List.getElem?_eq_some.mp h).1
  have hhead : (l.drop i).head? = some t := by rw [List.head?_drop]; exact h
  unfold modifyAt
  rw [hhead]
  have htake : (l.take i).length = i := by rw [List.length_take]; omega
  rw [List.append_assoc, List.getElem?_append_right (by omega)]
  rw [htake]
  simp

/-- C8: an `INDEX 01 mm:ss:ff` line while track `i` is open sets that
track's index timecode to `(mm, ss, ff)` and closes the open-track
context; afterwards, processing any run of lines containing no `TRACK`
directive leaves the track list untouched, and a `TITLE` (resp.
`PERFORMER`) line arriving after such a run sets the album title (resp.
album performer), never a field of the just-closed track. -/
theorem claim8_index_closes_track (s : CueState) (i mm ss ff : Nat)
    (t : CueTrack) (hcur : s.currentTrack = some i)
    (hget : s.tracks[i]? = some t) :
    (parse_cue_line s (.index01 mm ss ff)).tracks[i]?
      = some { t with index := some (mm, ss, ff) } ∧
    (parse_cue_line s (.index01 mm ss ff)).currentTrack = none ∧
    (∀ ls, (∀ l ∈ ls, isTrackDirective l = false) →
      (ls.foldl parse_cue_line (parse_cue_line s (.index01 mm ss ff))).tracks
        = (parse_cue_line s (.index01 mm ss ff)).tracks ∧
      (∀ v : String,
        ((ls ++ [CueLine.titleLine v]).foldl parse_cue_line
            (parse_cue_line s (.index01 mm ss ff))).album.albumTitle = some v ∧
        ((ls ++ [CueLine.titleLine v]).foldl parse_cue_line
            (parse_cue_line s (.index01 mm ss ff))).tracks
          = (parse_cue_line s (.index01 mm ss ff)).tracks ∧
        ((ls ++ [CueLine.performerLine v]).foldl parse_cue_line
            (parse_cue_line s (.index01 mm ss ff))).album.albumPerformer = some v ∧
        ((ls ++ [CueLine.performerLine v]).foldl parse_cue_line
            (parse_cue_line s (.index01 mm ss ff))).tracks
          = (parse_cue_line s (.index01 mm ss ff)).tracks)) := by
  have hset : parse_cue_line s (.index01 mm ss ff)
      = { s with
          tracks := modifyAt s.tracks i (fun tk => { tk with index := some (mm, ss, ff) })
          currentTrack := none } := by
    simp [parse_cue_line, hcur]
  refine ⟨?_, ?_, ?_⟩
  · rw [hset]
    exact modifyAt_getElem_self s.tracks i _ t hget
  · rw [hset]
  · intro ls hno
    have hcur' : (parse_cue_line s (.index01 mm ss ff)).currentTrack = none := by
      rw [hset]
    have hfz := parse_no_track_freezes ls _ hcur' hno
    refine ⟨hfz.1, ?_⟩
    intro v
    have hTitle : ∀ sv : CueState, sv.currentTrack = none →
        (parse_cue_line sv (.titleLine v)).album.albumTitle = some v ∧
        (parse_cue_line sv (.titleLine v)).tracks = sv.tracks := by
      intro sv hc
      simp [parse_cue_line, hc]
    have hPerf : ∀ sv : CueState, sv.currentTrack = none →
        (parse_cue_line sv (.performerLine v)).album.albumPerformer = some v ∧
        (parse_cue_line sv (.performerLine v)).tracks = sv.tracks := by
      intro sv hc
      simp [parse_cue_line, hc]
    rw [List.foldl_append, List.foldl_append]
    simp only [List.foldl_cons, List.foldl_nil]
    exact ⟨(hTitle _ hfz.2).1, (hTitle _ hfz.2).2.trans hfz.1,
      (hPerf _ hfz.2).1, (hPerf _ hfz.2).2.trans hfz.1⟩

/-- State for the C8 witness: one open track. -/
def w8State : CueState :=
  { album := {}
    tracks := [{ file := some fileADsf, track_num := "01", title := "Track 01",
                 performer := "", index := none }]
    currentFile := some fileADsf
    currentTrack := some 0 }

/-- C8 witness: concretely, `INDEX 01 0:2:0` sets track 0's timecode and
closes it, and a later `TITLE "X"` (after a `REM GENRE` line) lands on the
album, leaving the track list unchanged. -/
theorem claim8_witness :
    (parse_cue_line w8State (.index01 0 2 0)).tracks[0]?
      = some { file := some fileADsf, track_num := "01", title := "Track 01",
               performer := "", index := some (0, 2, 0) } ∧
    (parse_cue_line w8State (.index01 0 2 0)).currentTrack = none ∧
    (([CueLine.remGenre genreG] ++ [CueLine.titleLine titleX]).foldl parse_cue_line
        (parse_cue_line w8State (.index01 0 2 0))).album.albumTitle = some titleX ∧
    (([CueLine.remGenre genreG] ++ [CueLine.titleLine titleX]).foldl parse_cue_line
        (parse_cue_line w8State (.index01 0 2 0))).tracks
      = (parse_cue_line w8State (.index01 0 2 0)).tracks := by
  have h := claim8_index_closes_track w8State 0 0 2 0
    { file := some fileADsf, track_num := "01", title := "Track 01",
      performer := "", index := none } (by decide) (by decide)
  have h3 := (h.2.2 [CueLine.remGenre genreG] (by decide)).2 titleX
  exact ⟨h.1, h.2.1, h3.1, h3.2.1⟩

/-- Membership of block `k` in a computed block range (`none` — a track
with no file reference — covers nothing). -/
def rangeCovers : Option (Nat × Int) → Int → Prop
  | none, _ => False
  | some p, k => (p.1 : Int) ≤ k ∧ k < p.2

instance (r : Option (Nat × Int)) (k : Int) : Decidable (rangeCovers r k) :=
  match r with
  | none => isFalse id
  | some _ => inferInstanceAs (Decidable (_ ∧ _))

/-- Membership of block `k` in the union of a list of ranges. -/
def coveredBy (rs : List (Option (Nat × Int))) (k : Int) : Prop :=
  ∃ r ∈ rs, rangeCovers r k

instance (rs : List (Option (Nat × Int))) (k : Int) : Decidable (coveredBy rs k) :=
  List.decidableBEx _ rs

/-- Two ranges share no block. -/
def rangesDisjoint (r1 r2 : Option (Nat × Int)) : Prop :=
  ∀ k : Int, ¬(rangeCovers r1 k ∧ rangeCovers r2 k)

theorem coveredBy_cons (r : Option (Nat × Int)) (rs : List (Option (Nat × Int)))
    (k : Int) : coveredBy (r :: rs) k ↔ rangeCovers r k ∨ coveredBy rs k := by
  simp [coveredBy]

theorem blockRanges_drop_append (hdrs : String → DsfHeader)
    (pre l : List SplitTrack) :
    (blockRanges hdrs (pre ++ l)).drop pre.length = blockRanges hdrs l := by
  induction pre with
  | nil => simp
  | cons p pre ih => simpa [blockRanges] using ih

/-- The chained-interval argument behind C3: for a run of consecutive
same-file tracks followed only by other-file (or no) tracks, the ranges
`split_dsf_cue` computes chain end-to-start, so under sorted starts
bounded by the total block count they cover exactly
`[start-of-first-track, total)` with no overlap. -/
theorem chain_cover (hdrs : String → DsfHeader) (F : String)
    (rest : List SplitTrack)
    (hrest : ∀ r, rest.head? = some r → r.file ≠ some F)
    (T : Nat) (hT : totalBlocksOf (hdrs F) = (T : Int)) :
    ∀ run : List SplitTrack, run ≠ [] →
    (∀ t ∈ run, t.file = some F) →
    List.Chain' (fun a b => startBlockOf (hdrs F) a ≤ startBlockOf (hdrs F) b) run →
    (∀ t ∈ run, startBlockOf (hdrs F) t ≤ T) →
    ∀ t0, run.head? = some t0 →
    (∀ k : Int, coveredBy ((blockRanges hdrs (run ++ rest)).take run.length) k ↔
      ((startBlockOf (hdrs F) t0 : Int) ≤ k ∧ k < T)) ∧
    List.Pairwise rangesDisjoint ((blockRanges hdrs (run ++ rest)).take run.length) := by
  intro run
  induction run with
  | nil => intro h; exact absurd rfl h
  | cons t run' ih =>
    intro _ hfile hchain hbound t0 ht0
    have ht0' : t0 = t := by
      simp only [List.head?_cons, Option.some.injEq] at ht0
      exact ht0.symm
    rw [ht0']
    have htf : t.file = some F := hfile t (by simp)
    cases run' with
    | nil =>
      have hend : endBlockOf (hdrs F) F rest.head? = (T : Int) := by
        cases rest with
        | nil => simpa [endBlockOf] using hT
        | cons r rest' =>
          have := hrest r rfl
          simpa [endBlockOf, this] using hT
      have hr : (blockRanges hdrs ((t :: []) ++ rest)).take 1
          = [some (startBlockOf (hdrs F) t, (T : Int))] := by
        simp [blockRanges, trackRange, htf, hend]
      rw [show (t :: ([] : List SplitTrack)).length = 1 from rfl, hr]
      constructor
      · intro k
        rw [coveredBy_cons]
        simp [coveredBy, rangeCovers]
      · simp
    | cons t' run'' =>
      have htf' : t'.file = some F := hfile t' (by simp)
      have hih := ih (by simp)
        (fun x hx => hfile x (List.mem_cons_of_mem t hx))
        hchain.tail
        (fun x hx => hbound x (List.mem_cons_of_mem t hx))
        t' rfl
      have hchainhead : startBlockOf (hdrs F) t ≤ startBlockOf (hdrs F) t' :=
        (List.chain'_cons.mp hchain).1
      have hbt' : startBlockOf (hdrs F) t' ≤ T := hbound t' (by simp)
      have hstep : blockRanges hdrs ((t :: t' :: run'') ++ rest)
          = some (startBlockOf (hdrs F) t, (startBlockOf (hdrs F) t' : Int)) ::
            blockRanges hdrs ((t' :: run'') ++ rest) := by
        simp [blockRanges, trackRange, htf, endBlockOf, htf']
      rw [hstep]
      rw [show (t :: t' :: run'').length = (t' :: run'').length + 1 from rfl,
        List.take_succ_cons]
      constructor
      · intro k
        rw [coveredBy_cons, (hih.1 k)]
        simp only [rangeCovers]
        constructor
        · rintro (⟨h1, h2⟩ | ⟨h1, h2⟩) <;> constructor <;> omega
        · rintro ⟨h1, h2⟩
          rcases lt_or_le k (startBlockOf (hdrs F) t') with hc | hc
          · exact Or.inl ⟨h1, hc⟩
          · exact Or.inr ⟨hc, h2⟩
      · rw [List.pairwise_cons]
        refine ⟨?_, hih.2⟩
        intro r hr k ⟨hk1, hk2⟩
        have hkR : coveredBy ((blockRanges hdrs ((t' :: run'') ++ rest)).take
            (t' :: run'').length) k := ⟨r, hr, hk2⟩
        have := (hih.1 k).mp hkR
        simp only [rangeCovers] at hk1
        omega

/-- C3 (amended): for `N` consecutive tracks of the track list all
referencing file `F`, followed by a track of another file (or nothing),
the computed ranges chain — each ends where the next begins and the last
ends at the total block count — so **provided** the first track's start
block is 0 and the start blocks are sorted and bounded by the total block
count, the ranges are pairwise disjoint and their union is exactly
`[0, total_block_count)`.  (Without the added provisos the claim fails:
see the counterexample, where a lone track starting at a nonzero timecode
leaves `[0, start)` uncovered.)  The first conjunct shows tracks before
the run do not affect its ranges, so the statement holds at any position
in the list. -/
theorem claim3_gapless (hdrs : String → DsfHeader) (F : String)
    (pre run rest : List SplitTrack) (T : Nat)
    (hne : run ≠ [])
    (hfile : ∀ t ∈ run, t.file = some F)
    (hrest : ∀ r, rest.head? = some r → r.file ≠ some F)
    (hT : totalBlocksOf (hdrs F) = (T : Int))
    (hfirst : ∀ t0, run.head? = some t0 → startBlockOf (hdrs F) t0 = 0)
    (hchain : List.Chain' (fun a b =>
      startBlockOf (hdrs F) a ≤ startBlockOf (hdrs F) b) run)
    (hbound : ∀ t ∈ run, startBlockOf (hdrs F) t ≤ T) :
    (blockRanges hdrs (pre ++ run ++ rest)).drop pre.length
      = blockRanges hdrs (run ++ rest) ∧
    (∀ k : Int, coveredBy ((blockRanges hdrs (run ++ rest)).take run.length) k ↔
      (0 ≤ k ∧ k < T)) ∧
    List.Pairwise rangesDisjoint ((blockRanges hdrs (run ++ rest)).take run.length) := by
  obtain ⟨t0, ht0⟩ : ∃ t0, run.head? = some t0 := by
    cases run with
    | nil => exact absurd rfl hne
    | cons a l => exact ⟨a, rfl⟩
  have h := chain_cover hdrs F rest hrest T hT run hne hfile hchain hbound t0 ht0
  refine ⟨by rw [List.append_assoc]; exact blockRanges_drop_append hdrs pre (run ++ rest), ?_, h.2⟩
  intro k
  rw [h.1 k, hfirst t0 ht0]
  simp

/-- Header for the C3 counterexample and witness: 75 Hz, 1-byte blocks,
one channel, 16 data bytes, so 16 total blocks and block index =
seconds·75/8. -/
def c3Hdr : DsfHeader :=
  { total_file_size := 108, metadata_offset := 0, fmt_chunk_size := 52,
    fmt_version := 1, format_id := 0, channel_type := 1, channel_num := 1,
    sample_rate := 75, bits_per_sample := 1, sample_count := 128,
    block_size := 1, data_offset := 80, data_size := 16 }

/-- Header cache for the C3 examples. -/
def c3Hdrs : String → DsfHeader := fun _ => c3Hdr

/-- A lone track starting at timecode 00:01:00 (block 9 of 16). -/
def c3Track : SplitTrack := { file := some fileA, index_m := 0, index_s := 1, index_f := 0 }

/-- C3 (counterexample): a single track starting at a nonzero timecode
yields the one range `[9, 16)`, whose union does not equal
`[0, total_block_count) = [0, 16)`: block 0 is uncovered. -/
theorem claim3_counterexample :
    blockRanges c3Hdrs [c3Track] = [some (9, 16)] ∧
    totalBlocksOf (c3Hdrs fileA) = 16 ∧
    ¬ coveredBy (blockRanges c3Hdrs [c3Track]) 0 := by
  have hs : startBlockOf (c3Hdrs fileA) c3Track = 9 := by
    simp [startBlockOf, c3Hdrs, c3Hdr, c3Track, samples_to_block_index,
      time_to_samples_eq]
  have he : endBlockOf (c3Hdrs fileA) fileA none = 16 := by
    simp only [endBlockOf]
    decide
  have hr : blockRanges c3Hdrs [c3Track] = [some (9, 16)] := by
    simp only [blockRanges, trackRange, List.head?_nil,
      show c3Track.file = some fileA from rfl]
    rw [hs, he]
  refine ⟨hr, by decide, ?_⟩
  rw [hr]
  decide

/-- First track of the C3 witness (00:00:00, block 0). -/
def w3a : SplitTrack := { file := some fileA, index_m := 0, index_s := 0, index_f := 0 }

/-- Second track of the C3 witness (00:01:00, block 9). -/
def w3b : SplitTrack := { file := some fileA, index_m := 0, index_s := 1, index_f := 0 }

/-- C3 witness: with the first track at block 0 and sorted starts, the two
ranges `[0, 9)`, `[9, 16)` cover block 5 and stop at the total block
count 16. -/
theorem claim3_witness :
    coveredBy ((blockRanges c3Hdrs ([w3a, w3b] ++ [])).take 2) 5 ∧
    ¬ coveredBy ((blockRanges c3Hdrs ([w3a, w3b] ++ [])).take 2) 16 := by
  have ha : startBlockOf (c3Hdrs fileA) w3a = 0 := by
    simp [startBlockOf, c3Hdrs, c3Hdr, w3a, samples_to_block_index,
      time_to_samples_eq]
  have hb : startBlockOf (c3Hdrs fileA) w3b = 9 := by
    simp [startBlockOf, c3Hdrs, c3Hdr, w3b, samples_to_block_index,
      time_to_samples_eq]
  have h := claim3_gapless c3Hdrs fileA [] [w3a, w3b] [] 16 (by simp)
    (by intro t ht
        rcases List.mem_cons.mp ht with h' | h'
        · subst h'; rfl
        · rcases List.mem_cons.mp h' with h'' | h''
          · subst h''; rfl
          · exact absurd h'' (List.not_mem_nil t))
    (fun r hr => Option.noConfusion hr)
    (by decide)
    (by intro t0 ht0; injection ht0 with ht0; rw [← ht0]; exact ha)
    (by rw [List.chain'_cons]; exact ⟨by rw [ha, hb]; omega, List.chain'_singleton w3b⟩)
    (by intro t ht
        rcases List.mem_cons.mp ht with h' | h'
        · subst h'; rw [ha]; omega
        · rcases List.mem_cons.mp h' with h'' | h''
          · subst h''; rw [hb]; omega
          · exact absurd h'' (List.not_mem_nil t))
  exact ⟨(h.2.1 5).mpr (by omega), fun hc => by have := (h.2.1 16).mp hc; omega⟩

end DsfCueSplit
